import Mathlib

/-!
# SociTrack Summon application (`software/phone/summon/js/index.js`)

A shallow embedding of the telemetry decoder, the range validation performed by
`process_raw_buffer`, the objective of the position solver and the
connect-failure handler of the BLE state machine, followed by theorems that
settle the specification's claims against that embedding.

Modelling conventions.

* An `ArrayBuffer` / `DataView` is a list of bytes (`Fin 256`).  The accessors
  `getUint8` and `getInt32` raise `RangeError` when the read leaves the buffer.
* JavaScript numbers that carry measurements are elements of a linear ordered
  field `α` (instantiate `ℚ` to run the code, `ℝ` for the analytic statements).
  `Math.sqrt` and `numeric.uncmin` are library code and enter as parameters.
* A JavaScript object used as a string-keyed map is an association list in
  insertion order: assigning to an existing key keeps its position.
* A run of `process_raw_buffer` is the list of calls it makes to its
  collaborators (`app.log`, `app.update_location`, `numeric.uncmin`,
  `post_to_gdp`) together with the exception, if any, that ends it.
-/

set_option autoImplicit false

namespace SociTrack

variable {α : Type} [LinearOrderedField α] {β : Type}

/-! ## Data model -/

/-- Exceptions raised by the modelled JavaScript. -/
inductive JsError where
  | RangeError
  | TypeError
  deriving DecidableEq, Repr

/-- Bytes of an `ArrayBuffer`, as seen through `new DataView(buf, 0)`. -/
abbrev DataView := List (Fin 256)

/-- A three element array `[x, y, z]`. -/
structure Coord (α : Type) where
  x : α
  y : α
  z : α
  deriving DecidableEq, Repr

/-- A JavaScript object used as a map from strings, in insertion order. -/
abbrev Obj (β : Type) := List (String × β)

/-- Property read `o[k]`; `none` stands for `undefined`. -/
def Obj.get {β : Type} : Obj β → String → Option β
  | [], _ => none
  | (k', v) :: rest, k => if k' = k then some v else Obj.get rest k

/-- Property write `o[k] = v`: an existing key keeps its place. -/
def Obj.set {β : Type} : Obj β → String → β → Obj β
  | [], k, v => [(k, v)]
  | (k', v') :: rest, k, v =>
    if k' = k then (k, v) :: rest else (k', v') :: Obj.set rest k v

/-- Values the global `_anchor_locations` can hold: its initial `null`, the
`undefined` stored by `on_update_anchor_locations ()`, or a map from anchor
identifier to coordinate. -/
inductive AnchorLocations (α : Type) where
  | null
  | undefined
  | object (entries : Obj (Coord α))
  deriving Repr

/-- The test `_anchor_locations === null`. -/
def AnchorLocations.is_null {α : Type} : AnchorLocations α → Bool
  | .null => true
  | _ => false

/-- Argument of `app.log`: a fixed text, or the line `'  ' + eui + ': ' + range`. -/
inductive LogMsg (α : Type) where
  | text (s : String)
  | range (eui : String) (range : α)
  deriving DecidableEq, Repr

/-- Argument of `app.update_location`: a fixed text, or the line built from
`loc[0].toFixed(2)`, `loc[1].toFixed(2)`, `loc[2].toFixed(2)`. -/
inductive Status (α : Type) where
  | text (s : String)
  | xyz (loc : Coord α)
  deriving DecidableEq, Repr

/-- Calls made to collaborators while a buffer is processed. -/
inductive Event (α : Type) where
  | log (m : LogMsg α)
  | update_location (s : Status α)
  | uncmin (ranges : List α) (locations : List (Option (Coord α)))
  | post_to_gdp (x y z : α)
  deriving DecidableEq, Repr

/-- Outcome of a run: the calls made, and the exception that ended it. -/
structure Run (α : Type) where
  events : List (Event α)
  thrown : Option JsError
  deriving DecidableEq, Repr

/-! ## DataView accessors and data parsing -/

def SQUAREPOINT_READ_INT_RANGES : Nat := 1

/-- The accessor `dv.getUint8(byteOffset)`. -/
def getUint8 (dv : DataView) (byteOffset : Nat) : Except JsError Nat :=
  match dv.get? byteOffset with
  | some b => .ok b.val
  | none => .error .RangeError

/-- The accessor `dv.getInt32(byteOffset, true)`: four bytes, least significant first, read
as a two's-complement 32-bit integer. -/
def getInt32 (dv : DataView) (byteOffset : Nat) : Except JsError Int :=
  if byteOffset + 4 ≤ dv.length then
    let raw : Nat := ((dv.drop byteOffset).take 4).foldr (fun b acc => b.val + 256 * acc) 0
    .ok (((raw : Int) + 2 ^ 31) % 2 ^ 32 - 2 ^ 31)
  else
    .error .RangeError

/-- The conversion `val.toString(16)` of a non-negative integer. -/
def toString16 (val : Nat) : String :=
  String.mk (Nat.toDigits 16 val)

/-- Body of the `for (var i=0; i<8; i++)` loop of `buf_to_eui`; the first
argument counts the iterations left. -/
def buf_to_eui_loop (dv : DataView) (offset : Nat) : Nat → Nat → String → Except JsError String
  | 0, _, eui => .ok eui
  | todo + 1, i, eui =>
    match getUint8 dv (offset + i) with
    | .error e => .error e
    | .ok val =>
      let val := toString16 val
      let val := if val.length == 1 then "0" ++ val else val
      let eui := val ++ eui
      let eui := if i < 7 then ":" ++ eui else eui
      buf_to_eui_loop dv offset todo (i + 1) eui

def buf_to_eui (dv : DataView) (offset : Nat) : Except JsError String :=
  buf_to_eui_loop dv offset 8 0 ""

/-- The quotient `mm / 1000.0` is taken exactly in the field `α`. -/
def encoded_mm_to_meters (dv : DataView) (offset : Nat) : Except JsError α :=
  match getInt32 dv offset with
  | .error e => .error e
  | .ok mm => .ok ((mm : α) / 1000)

/-! ## Location calculation -/

/-- The `for` loop of `location_optimize`, by recursion on the ranges still to
visit; `i` is the loop index and `out` the array built so far. -/
def location_optimize_loop (sqrt : α → α) (tag_position : Coord α)
    (anchor_locations : List (Option (Coord α))) : List α → Nat → List α → Except JsError (List α)
  | [], _, out => .ok out
  | range :: rest, i, out =>
    match anchor_locations.get? i with
    | some (some loc) =>
      let next0 := tag_position.x - loc.x
      let next1 := tag_position.y - loc.y
      let next2 := tag_position.z - loc.z
      let next0 := next0 * next0
      let next1 := next1 * next1
      let next2 := next2 * next2
      let dist := sqrt (next0 + next1 + next2)
      let sub := dist - range
      location_optimize_loop sqrt tag_position anchor_locations rest (i + 1) (out ++ [sub * sub])
    | _ => .error .TypeError

/-- The call `out.reduce` with the adding callback: the sum of a non-empty
array, from the left. -/
def reduce_add : List α → Except JsError α
  | [] => .error .TypeError
  | a :: rest => .ok (rest.foldl (fun a b => a + b) a)

def location_optimize (sqrt : α → α) (tag_position : Coord α) (anchor_ranges : List α)
    (anchor_locations : List (Option (Coord α))) : Except JsError α :=
  match location_optimize_loop sqrt tag_position anchor_locations anchor_ranges 0 [] with
  | .error e => .error e
  | .ok out => reduce_add out

/-- The `for (var anchor_id in anchor_ranges)` loop of `calculate_location`. -/
def calculate_location_loop (anchor_locations : AnchorLocations α) :
    Obj α → List α → List (Option (Coord α)) → Except JsError (List α × List (Option (Coord α)))
  | [], ranges, locations => .ok (ranges, locations)
  | (anchor_id, range) :: rest, ranges, locations =>
    match anchor_locations with
    | .object entries =>
      calculate_location_loop anchor_locations rest (ranges ++ [range])
        (locations ++ [Obj.get entries anchor_id])
    | _ => .error .TypeError

/-- The solver `numeric.uncmin(f, x0)`, reduced to its `.solution`. -/
abbrev Uncmin (α : Type) := (Coord α → Except JsError α) → Coord α → Except JsError (Coord α)

def calculate_location (uncmin : Uncmin α) (sqrt : α → α) (anchor_ranges : Obj α)
    (anchor_locations : AnchorLocations α) : List (Event α) × Except JsError (Coord α) :=
  match calculate_location_loop anchor_locations anchor_ranges [] [] with
  | .error e => ([], .error e)
  | .ok (ranges, locations) =>
    let location_optimize_with_args := fun start => location_optimize sqrt start ranges locations
    ([.uncmin ranges locations], uncmin location_optimize_with_args ⟨0, 0, 0⟩)

/-! ## Handling a buffer from the phone -/

def offset_start : Nat := 2

def instance_length : Nat := 12

/-- The `for (var i=0; i<num_ranges; i++)` loop of `process_raw_buffer`; the
first argument counts the iterations left. -/
def range_loop (dv : DataView) :
    Nat → Nat → Obj α → Nat → List (Event α) → List (Event α) × Except JsError (Obj α × Nat)
  | 0, _, ranges, num_valid_ranges, ev => (ev, .ok (ranges, num_valid_ranges))
  | todo + 1, i, ranges, num_valid_ranges, ev =>
    let start := offset_start + i * instance_length
    match buf_to_eui dv start with
    | .error e => (ev, .error e)
    | .ok eui =>
      match (encoded_mm_to_meters dv (start + 8) : Except JsError α) with
      | .error e => (ev, .error e)
      | .ok range =>
        if range > -1000 then
          range_loop dv todo (i + 1) (Obj.set ranges eui range) (num_valid_ranges + 1)
            (ev ++ [.log (.range eui range)])
        else
          range_loop dv todo (i + 1) ranges num_valid_ranges (ev ++ [.log (.range eui range)])

/-- The handler of a buffer read from the tag.  The global `_anchor_locations`,
the solver and `Math.sqrt` are parameters; `post_to_gdp`, which this file calls
but does not define, is recorded as a call to a collaborator. -/
def process_raw_buffer (uncmin : Uncmin α) (sqrt : α → α)
    (_anchor_locations : AnchorLocations α) (buf : List (Fin 256)) : Run α :=
  let dv : DataView := buf
  match getUint8 dv 0 with
  | .error e => ⟨[], some e⟩
  | .ok reason_byte =>
    if reason_byte = SQUAREPOINT_READ_INT_RANGES then
      match getUint8 dv 1 with
      | .error e => ⟨[], some e⟩
      | .ok num_ranges =>
        if num_ranges = 0 then
          ⟨[.log (.text "Got range, 0 anchors"),
            .update_location (.text "Didn't get any ranges.")], none⟩
        else
          match range_loop dv num_ranges 0 [] 0
              [.log (.text ("Got " ++ toString num_ranges ++ " ranges."))] with
          | (ev, .error e) => ⟨ev, some e⟩
          | (ev, .ok (ranges, num_valid_ranges)) =>
            if _anchor_locations.is_null then
              ⟨ev ++ [.log (.text "No anchor locations"),
                .update_location (.text "Waiting for anchor locations")], none⟩
            else if num_valid_ranges ≥ 3 then
              match calculate_location uncmin sqrt ranges _anchor_locations with
              | (ev', .error e) => ⟨ev ++ ev', some e⟩
              | (ev', .ok loc) =>
                ⟨ev ++ ev' ++ [.update_location (.xyz loc), .post_to_gdp loc.x loc.y loc.z], none⟩
            else
              -- `loc` is still `undefined`: evaluating `loc[0]` throws
              ⟨ev, some .TypeError⟩
    else
      ⟨[.log (.text ("Got different reason byte: " ++ toString reason_byte))], none⟩

/-! ## Connect-failure handling -/

/-- Calls made by the BLE callbacks. -/
inductive BleCall where
  | log (s : String)
  | startScan
  | connect (id : String)
  deriving DecidableEq, Repr

def bleEnabled : List BleCall :=
  [.log "BLE is enabled.", .startScan]

def bleDeviceConnectionError (device_id : String) (err : String) : List BleCall :=
  .log ("Error connecting to TotTag: " ++ err) ::
    (if err = "Peripheral " ++ device_id ++ " not found." then
      bleEnabled
    else
      [.log "TotTag reconnecting try", .connect device_id])

/-! ## The wire format and the objective, as the specification words them -/

/-- One of the sixteen lowercase hexadecimal digits. -/
def hexDigit (d : Nat) : Char :=
  ['0', '1', '2', '3', '4', '5', '6', '7', '8', '9', 'a', 'b', 'c', 'd', 'e', 'f'].getD d '0'

/-- A byte as exactly two lowercase hexadecimal digits, zero padded. -/
def hex2 (b : Fin 256) : String :=
  String.mk [hexDigit (b.val / 16), hexDigit (b.val % 16)]

/-- Byte `k` of the view (`0` outside the buffer). -/
def byteAt (dv : DataView) (k : Nat) : Fin 256 :=
  dv.getD k 0

/-- The eight bytes at `offset` in colon-hex, byte `offset+7` first. -/
def spec_eui (dv : DataView) (offset : Nat) : String :=
  hex2 (byteAt dv (offset + 7)) ++ ":" ++ hex2 (byteAt dv (offset + 6)) ++ ":" ++
  hex2 (byteAt dv (offset + 5)) ++ ":" ++ hex2 (byteAt dv (offset + 4)) ++ ":" ++
  hex2 (byteAt dv (offset + 3)) ++ ":" ++ hex2 (byteAt dv (offset + 2)) ++ ":" ++
  hex2 (byteAt dv (offset + 1)) ++ ":" ++ hex2 (byteAt dv offset)

/-- The signed 32-bit integer whose little-endian encoding is the four bytes at
`offset`. -/
def spec_int32 (dv : DataView) (offset : Nat) : Int :=
  let u : Int := (byteAt dv offset).val + 256 * (byteAt dv (offset + 1)).val +
    65536 * (byteAt dv (offset + 2)).val + 16777216 * (byteAt dv (offset + 3)).val
  if (byteAt dv (offset + 3)).val ≥ 128 then u - 2 ^ 32 else u

/-- Record `i` of a range report: identifier and range in meters. -/
def spec_record (dv : DataView) (i : Nat) : String × α :=
  (spec_eui dv (2 + 12 * i), ((spec_int32 dv (2 + 12 * i + 8) : Int) : α) / 1000)

/-- Records `i`, `i+1`, ..., `i+n-1` of a range report. -/
def spec_records (dv : DataView) (i n : Nat) : List (String × α) :=
  (List.range' i n).map (spec_record dv)

/-- Records that are not error codes. -/
def valid_records (recs : List (String × α)) : List (String × α) :=
  recs.filter (fun r => r.2 > -1000)

/-- The object obtained by assigning the records in order. -/
def assign_all (ranges : Obj α) (recs : List (String × α)) : Obj α :=
  recs.foldl (fun o r => Obj.set o r.1 r.2) ranges

/-- The lines logged for the records. -/
def record_logs (recs : List (String × α)) : List (Event α) :=
  recs.map (fun r => Event.log (LogMsg.range r.1 r.2))

/-- Events that are calls to `app.log`. -/
def Event.is_log : Event α → Bool
  | .log _ => true
  | _ => false

/-- A range report with `N` records: reason code 1, declared count `N`, and
all `2 + 12 * N` bytes present. -/
def is_range_report (buf : List (Fin 256)) (N : Nat) : Prop :=
  (byteAt buf 0).val = SQUAREPOINT_READ_INT_RANGES ∧ (byteAt buf 1).val = N ∧
    2 + 12 * N ≤ buf.length

instance is_range_report_decidable (buf : List (Fin 256)) (N : Nat) :
    Decidable (is_range_report buf N) := by
  unfold is_range_report; infer_instance

/-- The solver objective as the specification words it: the sum over the
measurements of `(‖p − a_i‖ − r_i)²`. -/
def spec_objective (sqrt : α → α) (p : Coord α) (ranges : List α) (locs : List (Coord α)) : α :=
  ((List.zip ranges locs).map (fun q =>
    (sqrt ((p.x - q.2.x) ^ 2 + (p.y - q.2.y) ^ 2 + (p.z - q.2.z) ^ 2) - q.1) ^ 2)).sum

/-! ## Sample inputs -/

/-- A report with one record: anchor `…:0a` at 1000 mm. -/
def report_one : List (Fin 256) :=
  [1, 1,
   0x0a, 0, 0, 0, 0, 0, 0, 0, 0xe8, 0x03, 0, 0]

/-- A report with three records of distinct anchors at 1000, 2000 and 3000 mm. -/
def report_three : List (Fin 256) :=
  [1, 3,
   0x0a, 0, 0, 0, 0, 0, 0, 0, 0xe8, 0x03, 0, 0,
   0x0b, 0, 0, 0, 0, 0, 0, 0, 0xd0, 0x07, 0, 0,
   0x0c, 0, 0, 0, 0, 0, 0, 0, 0xb8, 0x0b, 0, 0]

/-- A report with three records, all of anchor `…:0a`, at 1000, 2000 and 3000 mm. -/
def report_same_anchor : List (Fin 256) :=
  [1, 3,
   0x0a, 0, 0, 0, 0, 0, 0, 0, 0xe8, 0x03, 0, 0,
   0x0a, 0, 0, 0, 0, 0, 0, 0, 0xd0, 0x07, 0, 0,
   0x0a, 0, 0, 0, 0, 0, 0, 0, 0xb8, 0x0b, 0, 0]

/-- A report with four records, the first two of the same anchor. -/
def report_repeat : List (Fin 256) :=
  [1, 4,
   0x0a, 0, 0, 0, 0, 0, 0, 0, 0xe8, 0x03, 0, 0,
   0x0a, 0, 0, 0, 0, 0, 0, 0, 0xd0, 0x07, 0, 0,
   0x0b, 0, 0, 0, 0, 0, 0, 0, 0xb8, 0x0b, 0, 0,
   0x0c, 0, 0, 0, 0, 0, 0, 0, 0xa0, 0x0f, 0, 0]

/-- A report with four records of distinct anchors; the second carries the
error code -1000000 mm. -/
def report_sentinel : List (Fin 256) :=
  [1, 4,
   0x0a, 0, 0, 0, 0, 0, 0, 0, 0xe8, 0x03, 0, 0,
   0x0b, 0, 0, 0, 0, 0, 0, 0, 0xc0, 0xbd, 0xf0, 0xff,
   0x0c, 0, 0, 0, 0, 0, 0, 0, 0xb8, 0x0b, 0, 0,
   0x0d, 0, 0, 0, 0, 0, 0, 0, 0xa0, 0x0f, 0, 0]

/-- A directory that knows the anchors `…:0a`, `…:0b` and `…:0c`. -/
def directory_abc : Obj (Coord α) :=
  [("00:00:00:00:00:00:00:0a", ⟨0, 0, 0⟩), ("00:00:00:00:00:00:00:0b", ⟨10, 0, 0⟩),
   ("00:00:00:00:00:00:00:0c", ⟨0, 10, 0⟩)]

/-- A stand-in for the solver: it evaluates the objective at the starting guess
and returns that guess. -/
def uncmin_at_start : Uncmin α :=
  fun f x0 =>
    match f x0 with
    | .error e => .error e
    | .ok _ => .ok x0

/-! ## Lemmas and theorems -/

theorem getUint8_of_lt (dv : DataView) (k : Nat) (h : k < dv.length) :
    getUint8 dv k = .ok (byteAt dv k).val := by
  simp [getUint8, byteAt, List.getD, List.get?_eq_getElem?, List.getElem?_eq_getElem h]

theorem getUint8_of_le (dv : DataView) (k : Nat) (h : dv.length ≤ k) :
    getUint8 dv k = .error .RangeError := by
  simp [getUint8, List.get?_eq_getElem?, List.getElem?_eq_none h]

set_option maxRecDepth 100000 in
theorem pad_toString16 : ∀ b : Fin 256,
    (if (toString16 b.val).length == 1 then "0" ++ toString16 b.val else toString16 b.val)
      = hex2 b := by
  decide

theorem buf_to_eui_loop_step (dv : DataView) (offset todo i : Nat) (eui : String)
    (h : offset + i < dv.length) :
    buf_to_eui_loop dv offset (todo + 1) i eui =
      buf_to_eui_loop dv offset todo (i + 1)
        (if i < 7 then ":" ++ (hex2 (byteAt dv (offset + i)) ++ eui)
          else hex2 (byteAt dv (offset + i)) ++ eui) := by
  rw [buf_to_eui_loop, getUint8_of_lt dv _ h]
  simp only [pad_toString16]

theorem buf_to_eui_ok (dv : DataView) (offset : Nat) (h : offset + 8 ≤ dv.length) :
    buf_to_eui dv offset = .ok (spec_eui dv offset) := by
  unfold buf_to_eui
  rw [buf_to_eui_loop_step dv offset 7 0 _ (by omega), buf_to_eui_loop_step dv offset 6 1 _ (by omega),
    buf_to_eui_loop_step dv offset 5 2 _ (by omega), buf_to_eui_loop_step dv offset 4 3 _ (by omega),
    buf_to_eui_loop_step dv offset 3 4 _ (by omega), buf_to_eui_loop_step dv offset 2 5 _ (by omega),
    buf_to_eui_loop_step dv offset 1 6 _ (by omega), buf_to_eui_loop_step dv offset 0 7 _ (by omega)]
  simp [buf_to_eui_loop, spec_eui, String.append_assoc]

theorem buf_to_eui_loop_short (dv : DataView) (offset : Nat) :
    ∀ (todo i : Nat) (eui : String), dv.length < offset + i + todo → 0 < todo →
      buf_to_eui_loop dv offset todo i eui = .error .RangeError := by
  intro todo
  induction todo with
  | zero => intro i eui _ h0; omega
  | succ todo ih =>
    intro i eui hlen _
    by_cases hi : offset + i < dv.length
    · rw [buf_to_eui_loop_step dv offset todo i eui hi]
      exact ih (i + 1) _ (by omega) (by omega)
    · rw [buf_to_eui_loop, getUint8_of_le dv _ (by omega)]

theorem buf_to_eui_short (dv : DataView) (offset : Nat) (h : dv.length < offset + 8) :
    buf_to_eui dv offset = .error .RangeError :=
  buf_to_eui_loop_short dv offset 8 0 "" (by omega) (by omega)

theorem hex2_length (b : Fin 256) : (hex2 b).length = 2 := rfl

theorem spec_eui_length (dv : DataView) (offset : Nat) : (spec_eui dv offset).length = 23 := by
  have hc : ":".length = 1 := rfl
  simp [spec_eui, String.length_append, hex2_length, hc]

theorem take4_drop {β : Type} (d : β) : ∀ (l : List β) (n : Nat), n + 4 ≤ l.length →
    (l.drop n).take 4 = [l.getD n d, l.getD (n + 1) d, l.getD (n + 2) d, l.getD (n + 3) d] := by
  intro l
  induction l with
  | nil => intro n h; simp at h
  | cons a t ih =>
    intro n h
    cases n with
    | zero =>
      match t, h with
      | b :: c :: e :: _, _ => simp
    | succ n =>
      have := ih n (by simpa using h)
      simpa [Nat.add_right_comm] using this

theorem getInt32_ok (dv : DataView) (offset : Nat) (h : offset + 4 ≤ dv.length) :
    getInt32 dv offset = .ok (spec_int32 dv offset) := by
  have hd := take4_drop (0 : Fin 256) dv offset h
  have h0 := (byteAt dv offset).isLt
  have h1 := (byteAt dv (offset + 1)).isLt
  have h2 := (byteAt dv (offset + 2)).isLt
  have h3 := (byteAt dv (offset + 3)).isLt
  unfold getInt32
  rw [if_pos h, hd]
  simp only [spec_int32, List.foldr, byteAt]
  simp only [byteAt] at h0 h1 h2 h3
  generalize (dv.getD offset 0).val = b0 at *
  generalize (dv.getD (offset + 1) 0).val = b1 at *
  generalize (dv.getD (offset + 2) 0).val = b2 at *
  generalize (dv.getD (offset + 3) 0).val = b3 at *
  refine congrArg Except.ok ?_
  split <;> push_cast <;> omega

theorem getInt32_short (dv : DataView) (offset : Nat) (h : dv.length < offset + 4) :
    getInt32 dv offset = .error .RangeError := by
  simp [getInt32]; omega

theorem Obj.get_set (o : Obj β) (k k' : String) (v : β) :
    Obj.get (Obj.set o k v) k' = if k = k' then some v else Obj.get o k' := by
  induction o with
  | nil => simp [Obj.set, Obj.get]
  | cons p rest ih =>
    obtain ⟨k0, v0⟩ := p
    by_cases h0 : k0 = k
    · subst h0
      by_cases h1 : k0 = k' <;> simp [Obj.set, Obj.get, h1]
    · by_cases h1 : k0 = k'
      · subst h1
        simp [Obj.set, Obj.get, h0, Ne.symm h0]
      · simp [Obj.set, Obj.get, h0, h1, ih]

theorem Obj.mem_set (o : Obj β) (k : String) (v : β) (p : String × β) :
    p ∈ Obj.set o k v → p ∈ o ∨ p = (k, v) := by
  induction o with
  | nil => intro h; simpa [Obj.set] using h
  | cons q rest ih =>
    obtain ⟨k0, v0⟩ := q
    by_cases h0 : k0 = k
    · simp only [Obj.set, h0, if_true, List.mem_cons]
      rintro (h | h)
      · exact Or.inr h
      · exact Or.inl (Or.inr h)
    · simp only [Obj.set, h0, if_false, List.mem_cons]
      rintro (h | h)
      · exact Or.inl (Or.inl h)
      · rcases ih h with h | h
        · exact Or.inl (Or.inr h)
        · exact Or.inr h

theorem mem_assign_all (recs : List (String × β)) : ∀ (o : Obj β) (p : String × β),
    p ∈ assign_all o recs → p ∈ o ∨ p ∈ recs := by
  induction recs with
  | nil => intro o p h; exact Or.inl h
  | cons r recs ih =>
    intro o p h
    rcases ih (Obj.set o r.1 r.2) p h with h | h
    · rcases Obj.mem_set o r.1 r.2 p h with h | h
      · exact Or.inl h
      · exact Or.inr (by rw [h]; exact List.mem_cons_self _ _)
    · exact Or.inr (List.mem_cons_of_mem _ h)

theorem get_assign_all_of_not_key (recs : List (String × β)) : ∀ (o : Obj β) (k : String),
    (∀ r ∈ recs, r.1 ≠ k) → Obj.get (assign_all o recs) k = Obj.get o k := by
  induction recs with
  | nil => intro o k _; rfl
  | cons r recs ih =>
    intro o k h
    have h1 : r.1 ≠ k := h r (List.mem_cons_self _ _)
    have := ih (Obj.set o r.1 r.2) k (fun r' hr' => h r' (List.mem_cons_of_mem _ hr'))
    simp only [assign_all, List.foldl_cons] at this ⊢
    rw [this, Obj.get_set, if_neg h1]

theorem assign_all_append (o : Obj β) (xs ys : List (String × β)) :
    assign_all o (xs ++ ys) = assign_all (assign_all o xs) ys := by
  simp [assign_all, List.foldl_append]

theorem get_assign_all_last (o : Obj β) (xs ys : List (String × β)) (r : String × β)
    (h : ∀ r' ∈ ys, r'.1 ≠ r.1) :
    Obj.get (assign_all o (xs ++ r :: ys)) r.1 = some r.2 := by
  rw [assign_all_append]
  show Obj.get (assign_all (Obj.set (assign_all o xs) r.1 r.2) ys) r.1 = some r.2
  rw [get_assign_all_of_not_key ys _ _ h, Obj.get_set, if_pos rfl]

theorem encoded_mm_to_meters_ok (dv : DataView) (offset : Nat) (h : offset + 4 ≤ dv.length) :
    (encoded_mm_to_meters dv offset : Except JsError α)
      = .ok (((spec_int32 dv offset : Int) : α) / 1000) := by
  simp [encoded_mm_to_meters, getInt32_ok dv offset h]

theorem encoded_mm_to_meters_short (dv : DataView) (offset : Nat) (h : dv.length < offset + 4) :
    (encoded_mm_to_meters dv offset : Except JsError α) = .error .RangeError := by
  simp [encoded_mm_to_meters, getInt32_short dv offset h]

theorem range_loop_ok (dv : DataView) :
    ∀ (todo i : Nat) (ranges : Obj α) (nv : Nat) (ev : List (Event α)),
      2 + 12 * (i + todo) ≤ dv.length →
      range_loop dv todo i ranges nv ev =
        (ev ++ record_logs (spec_records dv i todo),
          .ok (assign_all ranges (valid_records (spec_records dv i todo)),
            nv + (valid_records (spec_records (α := α) dv i todo)).length)) := by
  intro todo
  induction todo with
  | zero =>
    intro i ranges nv ev _
    simp [range_loop, spec_records, record_logs, valid_records, assign_all]
  | succ todo ih =>
    intro i ranges nv ev h
    have he : buf_to_eui dv (offset_start + i * instance_length) = .ok (spec_eui dv (2 + 12 * i)) := by
      have : offset_start + i * instance_length = 2 + 12 * i := by
        simp [offset_start, instance_length]; omega
      rw [this]; exact buf_to_eui_ok dv _ (by omega)
    have hr : (encoded_mm_to_meters dv (offset_start + i * instance_length + 8) : Except JsError α)
        = .ok (((spec_int32 dv (2 + 12 * i + 8) : Int) : α) / 1000) := by
      have : offset_start + i * instance_length + 8 = 2 + 12 * i + 8 := by
        simp [offset_start, instance_length]; omega
      rw [this]; exact encoded_mm_to_meters_ok dv _ (by omega)
    rw [range_loop]
    simp only [he, hr]
    have hs : spec_records (α := α) dv i (todo + 1)
        = spec_record dv i :: spec_records dv (i + 1) todo := by
      simp [spec_records, List.range'_succ]
    by_cases hv : ((spec_int32 dv (2 + 12 * i + 8) : Int) : α) / 1000 > -1000
    · rw [if_pos hv, ih (i + 1) _ _ _ (by omega), hs]
      have hf : valid_records (spec_record (α := α) dv i :: spec_records dv (i + 1) todo)
          = spec_record dv i :: valid_records (spec_records dv (i + 1) todo) := by
        simp [valid_records, spec_record, hv]
      rw [hf]
      simp [record_logs, assign_all, spec_record]
      omega
    · rw [if_neg hv, ih (i + 1) _ _ _ (by omega), hs]
      have hf : valid_records (spec_record (α := α) dv i :: spec_records dv (i + 1) todo)
          = valid_records (spec_records dv (i + 1) todo) := by
        simp [valid_records, spec_record, hv]
      rw [hf]
      simp [record_logs, spec_record]

theorem range_loop_short (dv : DataView) :
    ∀ (todo i : Nat) (ranges : Obj α) (nv : Nat) (ev : List (Event α)),
      dv.length < 2 + 12 * (i + todo) → 0 < todo →
      ∃ ev', range_loop dv todo i ranges nv ev = (ev ++ ev', .error .RangeError) ∧
        ∀ e ∈ ev', Event.is_log e = true := by
  intro todo
  induction todo with
  | zero => intro i ranges nv ev _ h0; omega
  | succ todo ih =>
    intro i ranges nv ev h _
    have hstart : offset_start + i * instance_length = 2 + 12 * i := by
      simp [offset_start, instance_length]; omega
    rw [range_loop]
    simp only [hstart]
    by_cases h8 : 2 + 12 * i + 8 ≤ dv.length
    · rw [buf_to_eui_ok dv _ h8]
      by_cases h12 : 2 + 12 * i + 8 + 4 ≤ dv.length
      · rw [encoded_mm_to_meters_ok dv _ h12]
        simp only []
        generalize spec_eui dv (2 + 12 * i) = eui
        generalize ((spec_int32 dv (2 + 12 * i + 8) : Int) : α) / 1000 = range
        split
        · obtain ⟨ev', h1, h2⟩ := ih (i + 1) (Obj.set ranges eui range) (nv + 1)
            (ev ++ [.log (.range eui range)]) (by omega) (by omega)
          refine ⟨Event.log (.range eui range) :: ev', ?_, ?_⟩
          · rw [h1]; simp
          · intro e he
            rcases List.mem_cons.mp he with rfl | he
            · rfl
            · exact h2 e he
        · obtain ⟨ev', h1, h2⟩ := ih (i + 1) ranges nv
            (ev ++ [.log (.range eui range)]) (by omega) (by omega)
          refine ⟨Event.log (.range eui range) :: ev', ?_, ?_⟩
          · rw [h1]; simp
          · intro e he
            rcases List.mem_cons.mp he with rfl | he
            · rfl
            · exact h2 e he
      · rw [encoded_mm_to_meters_short dv _ (by omega)]
        exact ⟨[], by simp, by simp⟩
    · rw [buf_to_eui_short dv _ (by omega)]
      exact ⟨[], by simp, by simp⟩

omit [LinearOrderedField α] in
theorem calculate_location_loop_object (entries : Obj (Coord α)) :
    ∀ (rest : Obj α) (rs : List α) (ls : List (Option (Coord α))),
      calculate_location_loop (.object entries) rest rs ls =
        .ok (rs ++ rest.map Prod.snd, ls ++ rest.map (fun p => Obj.get entries p.1)) := by
  intro rest
  induction rest with
  | nil => intro rs ls; simp [calculate_location_loop]
  | cons p rest ih =>
    intro rs ls
    obtain ⟨k, v⟩ := p
    simp [calculate_location_loop, ih]

theorem calculate_location_object (uncmin : Uncmin α) (sqrt : α → α) (anchor_ranges : Obj α)
    (entries : Obj (Coord α)) :
    calculate_location uncmin sqrt anchor_ranges (.object entries) =
      ([.uncmin (anchor_ranges.map Prod.snd) (anchor_ranges.map (fun p => Obj.get entries p.1))],
        uncmin (fun start => location_optimize sqrt start (anchor_ranges.map Prod.snd)
          (anchor_ranges.map (fun p => Obj.get entries p.1))) ⟨0, 0, 0⟩) := by
  simp [calculate_location, calculate_location_loop_object]

theorem calculate_location_not_object (uncmin : Uncmin α) (sqrt : α → α) (anchor_ranges : Obj α)
    (dir : AnchorLocations α) (hd : ∀ entries, dir ≠ .object entries) (hne : anchor_ranges ≠ []) :
    calculate_location uncmin sqrt anchor_ranges dir = ([], .error .TypeError) := by
  cases anchor_ranges with
  | nil => exact absurd rfl hne
  | cons p rest =>
    obtain ⟨k, v⟩ := p
    cases dir with
    | object entries => exact absurd rfl (hd entries)
    | null => simp [calculate_location, calculate_location_loop]
    | undefined => simp [calculate_location, calculate_location_loop]

theorem Obj.set_ne_nil (o : Obj β) (k : String) (v : β) : Obj.set o k v ≠ [] := by
  cases o with
  | nil => simp [Obj.set]
  | cons p rest =>
    obtain ⟨k0, v0⟩ := p
    by_cases h : k0 = k <;> simp [Obj.set, h]

theorem assign_all_ne_nil (recs : List (String × β)) : ∀ (o : Obj β),
    (o ≠ [] ∨ recs ≠ []) → assign_all o recs ≠ [] := by
  induction recs with
  | nil => intro o h; rcases h with h | h; exact h; exact absurd rfl h
  | cons r recs ih =>
    intro o _
    exact ih (Obj.set o r.1 r.2) (Or.inl (Obj.set_ne_nil o r.1 r.2))

/-- The run of `process_raw_buffer` on a range report with at least one record,
in terms of the records of the wire format. -/
theorem process_raw_buffer_report (uncmin : Uncmin α) (sqrt : α → α) (dir : AnchorLocations α)
    (buf : List (Fin 256)) (N : Nat) (hwf : is_range_report buf N) (hN : 0 < N) :
    process_raw_buffer uncmin sqrt dir buf =
      if dir.is_null then
        ⟨Event.log (.text ("Got " ++ toString N ++ " ranges.")) ::
          record_logs (spec_records buf 0 N) ++
          [.log (.text "No anchor locations"),
            .update_location (.text "Waiting for anchor locations")], none⟩
      else if (valid_records (spec_records (α := α) buf 0 N)).length ≥ 3 then
        match calculate_location uncmin sqrt
            (assign_all [] (valid_records (spec_records buf 0 N))) dir with
        | (ev', .error e) =>
          ⟨Event.log (.text ("Got " ++ toString N ++ " ranges.")) ::
            record_logs (spec_records buf 0 N) ++ ev', some e⟩
        | (ev', .ok loc) =>
          ⟨Event.log (.text ("Got " ++ toString N ++ " ranges.")) ::
            record_logs (spec_records buf 0 N) ++ ev' ++
            [.update_location (.xyz loc), .post_to_gdp loc.x loc.y loc.z], none⟩
      else
        ⟨Event.log (.text ("Got " ++ toString N ++ " ranges.")) ::
          record_logs (spec_records buf 0 N), some .TypeError⟩ := by
  obtain ⟨h0, h1, hlen⟩ := hwf
  have g0 : getUint8 buf 0 = .ok SQUAREPOINT_READ_INT_RANGES := by
    rw [getUint8_of_lt buf 0 (by omega), h0]
  have g1 : getUint8 buf 1 = .ok N := by
    rw [getUint8_of_lt buf 1 (by omega), h1]
  have hN0 : N ≠ 0 := by omega
  unfold process_raw_buffer
  simp only [g0, g1, if_true, if_neg hN0]
  rw [range_loop_ok buf N 0 [] 0 _ (by omega)]
  simp only [Nat.zero_add, List.singleton_append, List.cons_append, List.nil_append]

theorem process_raw_buffer_events_start (uncmin : Uncmin α) (sqrt : α → α)
    (dir : AnchorLocations α) (buf : List (Fin 256)) (N : Nat) (hwf : is_range_report buf N)
    (hN : 0 < N) :
    ∃ tail, (process_raw_buffer uncmin sqrt dir buf).events =
      Event.log (.text ("Got " ++ toString N ++ " ranges.")) ::
        record_logs (spec_records buf 0 N) ++ tail := by
  rw [process_raw_buffer_report uncmin sqrt dir buf N hwf hN]
  split
  · exact ⟨_, rfl⟩
  · split
    · split
      · exact ⟨_, rfl⟩
      · rename_i ev' loc _
        exact ⟨ev' ++ [.update_location (.xyz loc), .post_to_gdp loc.x loc.y loc.z], by simp⟩
    · exact ⟨[], by simp⟩

theorem record_logs_getElem? (buf : DataView) (N i : Nat) (hi : i < N) :
    (record_logs (spec_records (α := α) buf 0 N))[i]?
      = some (Event.log (.range (spec_eui buf (2 + 12 * i))
          (((spec_int32 buf (2 + 12 * i + 8) : Int) : α) / 1000))) := by
  simp [record_logs, spec_records, List.getElem?_map, List.getElem?_range' , hi, spec_record]

/-- C1: a range report (reason code 1, declared count `n`) shorter than
`2 + 12 * n` bytes makes `process_raw_buffer` raise `RangeError`; the calls made
before the exception are log lines only, so no location update is reported, the
solver is not invoked and nothing is posted. -/
theorem process_raw_buffer_truncated_raises (uncmin : Uncmin α) (sqrt : α → α)
    (dir : AnchorLocations α) (buf : List (Fin 256)) (n : Fin 256)
    (h0 : buf[0]? = some 1) (h1 : buf[1]? = some n) (hlen : buf.length < 2 + 12 * n.val) :
    (process_raw_buffer uncmin sqrt dir buf).thrown = some .RangeError ∧
    (∀ s, Event.update_location s ∉ (process_raw_buffer uncmin sqrt dir buf).events) ∧
    (∀ rs ls, Event.uncmin rs ls ∉ (process_raw_buffer uncmin sqrt dir buf).events) ∧
    (∀ x y z, Event.post_to_gdp x y z ∉ (process_raw_buffer uncmin sqrt dir buf).events) := by
  have hl1 : 1 < buf.length := by
    by_contra hc
    rw [List.getElem?_eq_none (by omega)] at h1
    exact absurd h1 (by simp)
  have g0 : getUint8 buf 0 = .ok SQUAREPOINT_READ_INT_RANGES := by
    simp [getUint8, List.get?_eq_getElem?, h0, SQUAREPOINT_READ_INT_RANGES]
  have g1 : getUint8 buf 1 = .ok n.val := by
    simp [getUint8, List.get?_eq_getElem?, h1]
  have hn0 : n.val ≠ 0 := by omega
  obtain ⟨ev', hloop, hlog⟩ := range_loop_short (α := α) buf n.val 0 [] 0
    [.log (.text ("Got " ++ toString n.val ++ " ranges."))] (by omega) (by omega)
  have hrun : process_raw_buffer uncmin sqrt dir buf =
      ⟨[.log (.text ("Got " ++ toString n.val ++ " ranges."))] ++ ev', some .RangeError⟩ := by
    unfold process_raw_buffer
    simp only [g0, g1, if_true, if_neg hn0, hloop]
  have hall : ∀ e ∈ (process_raw_buffer uncmin sqrt dir buf).events, Event.is_log e = true := by
    rw [hrun]
    intro e he
    rcases List.mem_append.mp he with he | he
    · rw [List.mem_singleton.mp he]; rfl
    · exact hlog e he
  refine ⟨by rw [hrun], ?_, ?_, ?_⟩
  · intro s hs; exact absurd (hall _ hs) (by simp [Event.is_log])
  · intro rs ls hs; exact absurd (hall _ hs) (by simp [Event.is_log])
  · intro x y z hs; exact absurd (hall _ hs) (by simp [Event.is_log])

/-- Witness for C1: a report declaring one record but carrying three payload bytes. -/
theorem process_raw_buffer_truncated_raises_witness :
    (process_raw_buffer (α := ℚ) (fun _ x0 => .ok x0) (fun x => x) .null
        [1, 1, 0, 0, 0]).thrown = some .RangeError ∧
    (∀ s, Event.update_location s ∉ (process_raw_buffer (α := ℚ) (fun _ x0 => .ok x0)
        (fun x => x) .null [1, 1, 0, 0, 0]).events) ∧
    (∀ rs ls, Event.uncmin rs ls ∉ (process_raw_buffer (α := ℚ) (fun _ x0 => .ok x0)
        (fun x => x) .null [1, 1, 0, 0, 0]).events) ∧
    (∀ x y z, Event.post_to_gdp x y z ∉ (process_raw_buffer (α := ℚ) (fun _ x0 => .ok x0)
        (fun x => x) .null [1, 1, 0, 0, 0]).events) :=
  process_raw_buffer_truncated_raises (fun _ x0 => .ok x0) (fun x => x) .null
    [1, 1, 0, 0, 0] 1 rfl rfl (by decide)

/-- C2: with eight bytes available at `offset`, `buf_to_eui` returns the 23
character string of the eight bytes, each as two lowercase hexadecimal digits,
joined by single colons, byte `offset+7` first and byte `offset` last; bytes
`1d 50 44 50 50 e5 98 c0` give `c0:98:e5:50:50:44:50:1d`. -/
theorem buf_to_eui_renders_msb_first (dv : DataView) (offset : Nat)
    (h : offset + 8 ≤ dv.length) :
    buf_to_eui dv offset = .ok (spec_eui dv offset) ∧
    (spec_eui dv offset).length = 23 ∧
    buf_to_eui [0x1d, 0x50, 0x44, 0x50, 0x50, 0xe5, 0x98, 0xc0] 0
      = .ok "c0:98:e5:50:50:44:50:1d" :=
  ⟨buf_to_eui_ok dv offset h, spec_eui_length dv offset, rfl⟩

/-- Witness for C2: the identifier stored after the two header bytes. -/
theorem buf_to_eui_renders_msb_first_witness :
    buf_to_eui [1, 1, 0x0f, 0x50, 0x44, 0x50, 0x50, 0xe5, 0x98, 0xc0, 0, 0, 0, 0] 2
      = .ok "c0:98:e5:50:50:44:50:0f" :=
  (buf_to_eui_renders_msb_first
    [1, 1, 0x0f, 0x50, 0x44, 0x50, 0x50, 0xe5, 0x98, 0xc0, 0, 0, 0, 0] 2 (by decide)).1

/-- C3: with four bytes available at `offset`, `encoded_mm_to_meters` returns
`v / 1000` for the signed 32-bit integer `v` stored least significant byte first
at `offset`; and in a range report `process_raw_buffer` applies it at offset
`2 + 12 * i + 8` of record `i`: that is the range it logs for the record. -/
theorem encoded_mm_to_meters_signed_le (dv : DataView) (offset : Nat)
    (h : offset + 4 ≤ dv.length) (uncmin : Uncmin α) (sqrt : α → α) (dir : AnchorLocations α)
    (buf : List (Fin 256)) (N i : Nat) (hwf : is_range_report buf N) (hi : i < N) :
    (encoded_mm_to_meters dv offset : Except JsError α)
      = .ok (((spec_int32 dv offset : Int) : α) / 1000) ∧
    ∃ eui range, buf_to_eui buf (2 + 12 * i) = .ok eui ∧
      (encoded_mm_to_meters buf (2 + 12 * i + 8) : Except JsError α) = .ok range ∧
      range = ((spec_int32 buf (2 + 12 * i + 8) : Int) : α) / 1000 ∧
      (process_raw_buffer uncmin sqrt dir buf).events[i + 1]?
        = some (Event.log (.range eui range)) := by
  refine ⟨encoded_mm_to_meters_ok dv offset h, _, _, buf_to_eui_ok buf _ ?_,
    encoded_mm_to_meters_ok buf _ ?_, rfl, ?_⟩
  · have := hwf.2.2; omega
  · have := hwf.2.2; omega
  · obtain ⟨tail, ht⟩ := process_raw_buffer_events_start uncmin sqrt dir buf N hwf (by omega)
    rw [ht, List.cons_append, List.getElem?_cons_succ, List.getElem?_append_left
      (by simp [record_logs, spec_records]; exact hi)]
    exact record_logs_getElem? buf N i hi

/-- Witness for C3: the range field of the single record of `report_one`. -/
theorem encoded_mm_to_meters_signed_le_witness :
    (encoded_mm_to_meters report_one 10 : Except JsError ℚ)
      = .ok (((spec_int32 report_one 10 : Int) : ℚ) / 1000) ∧
    ∃ eui range, buf_to_eui report_one (2 + 12 * 0) = .ok eui ∧
      (encoded_mm_to_meters report_one (2 + 12 * 0 + 8) : Except JsError ℚ) = .ok range ∧
      range = ((spec_int32 report_one (2 + 12 * 0 + 8) : Int) : ℚ) / 1000 ∧
      (process_raw_buffer uncmin_at_start (fun x => x) .null report_one).events[0 + 1]?
        = some (Event.log (.range eui range)) :=
  encoded_mm_to_meters_signed_le report_one 10 (by decide) uncmin_at_start (fun x => x) .null
    report_one 1 0 (by decide) (by decide)

theorem spec_records_split (buf : DataView) (N j : Nat) (hj : j < N) :
    spec_records (α := α) buf 0 N =
      spec_records buf 0 j ++ spec_record buf j :: spec_records buf (j + 1) (N - j - 1) := by
  have h1 : List.range' 0 N = List.range' 0 j ++ List.range' (0 + j) (N - j) := by
    rw [List.range'_append_1]; congr 1; omega
  have h2 : List.range' (0 + j) (N - j) = j :: List.range' (j + 1) (N - j - 1) := by
    have : N - j = (N - j - 1) + 1 := by omega
    rw [this, List.range'_succ]; simp
  unfold spec_records
  rw [h1, h2, List.map_append, List.map_cons]

theorem mem_spec_records (buf : DataView) (s n : Nat) (r : String × α) :
    r ∈ spec_records buf s n ↔ ∃ k, s ≤ k ∧ k < s + n ∧ r = spec_record buf k := by
  simp only [spec_records, List.mem_map, List.mem_range'_1]
  constructor
  · rintro ⟨k, ⟨h1, h2⟩, rfl⟩; exact ⟨k, h1, h2, rfl⟩
  · rintro ⟨k, h1, h2, rfl⟩; exact ⟨k, ⟨h1, h2⟩, rfl⟩

theorem mem_valid_records (recs : List (String × α)) (r : String × α) :
    r ∈ valid_records recs ↔ r ∈ recs ∧ r.2 > -1000 := by
  simp [valid_records]

theorem valid_records_append (xs ys : List (String × α)) :
    valid_records (xs ++ ys) = valid_records xs ++ valid_records ys := by
  simp [valid_records]

/-- In the object built by the loop, the identifier of a valid record that no
later valid record repeats is mapped to that record's range. -/
theorem get_ranges_of_last (buf : DataView) (N j : Nat) (hj : j < N)
    (hv : (spec_record (α := α) buf j).2 > -1000)
    (hlast : ∀ k, j < k → k < N → (spec_record (α := α) buf k).1 = (spec_record (α := α) buf j).1 →
      (spec_record (α := α) buf k).2 ≤ -1000) :
    Obj.get (assign_all [] (valid_records (spec_records (α := α) buf 0 N)))
      (spec_record (α := α) buf j).1 = some (spec_record (α := α) buf j).2 := by
  rw [spec_records_split buf N j hj, valid_records_append]
  have hc : valid_records (spec_record (α := α) buf j :: spec_records buf (j + 1) (N - j - 1))
      = spec_record buf j :: valid_records (spec_records buf (j + 1) (N - j - 1)) := by
    simp [valid_records, hv]
  rw [hc]
  apply get_assign_all_last
  intro r hr hkey
  obtain ⟨hmem, hval⟩ := (mem_valid_records _ r).mp hr
  obtain ⟨k, h1, h2, rfl⟩ := (mem_spec_records buf _ _ r).mp hmem
  exact absurd hval (not_lt.mpr (hlast k (by omega) (by omega) hkey))

/-- Every valid record has a last valid record with the same identifier. -/
theorem exists_last_valid (buf : DataView) (N : Nat) :
    ∀ (d i : Nat), N - i ≤ d → i < N → (spec_record (α := α) buf i).2 > -1000 →
      ∃ j, i ≤ j ∧ j < N ∧ (spec_record (α := α) buf j).1 = (spec_record (α := α) buf i).1 ∧
        (spec_record (α := α) buf j).2 > -1000 ∧
        ∀ k, j < k → k < N → (spec_record (α := α) buf k).1 = (spec_record (α := α) buf i).1 →
          (spec_record (α := α) buf k).2 ≤ -1000 := by
  intro d
  induction d with
  | zero => intro i hd hi _; omega
  | succ d ih =>
    intro i hd hi hv
    by_cases hex : ∃ k, i < k ∧ k < N ∧
        (spec_record (α := α) buf k).1 = (spec_record (α := α) buf i).1 ∧
        (spec_record (α := α) buf k).2 > -1000
    · obtain ⟨k, hik, hkN, hkey, hkv⟩ := hex
      obtain ⟨j, h1, h2, h3, h4, h5⟩ := ih k (by omega) hkN hkv
      refine ⟨j, by omega, h2, h3.trans hkey, h4, ?_⟩
      intro k' hk1 hk2 hk3
      exact h5 k' hk1 hk2 (hk3.trans hkey.symm)
    · refine ⟨i, le_refl i, hi, rfl, hv, ?_⟩
      intro k hk1 hk2 hk3
      by_contra hc
      exact hex ⟨k, hk1, hk2, hk3, not_le.mp hc⟩

/-- The run of `process_raw_buffer` on a range report when the directory is an
object. -/
theorem process_raw_buffer_object (uncmin : Uncmin α) (sqrt : α → α) (entries : Obj (Coord α))
    (buf : List (Fin 256)) (N : Nat) (hwf : is_range_report buf N) (hN : 0 < N) :
    process_raw_buffer uncmin sqrt (.object entries) buf =
      if (valid_records (spec_records (α := α) buf 0 N)).length ≥ 3 then
        match uncmin (fun start => location_optimize sqrt start
            ((assign_all [] (valid_records (spec_records (α := α) buf 0 N))).map Prod.snd)
            ((assign_all [] (valid_records (spec_records (α := α) buf 0 N))).map
              (fun p => Obj.get entries p.1))) ⟨0, 0, 0⟩ with
        | .error e =>
          ⟨Event.log (.text ("Got " ++ toString N ++ " ranges.")) ::
            record_logs (spec_records (α := α) buf 0 N) ++
            [.uncmin ((assign_all [] (valid_records (spec_records (α := α) buf 0 N))).map Prod.snd)
              ((assign_all [] (valid_records (spec_records (α := α) buf 0 N))).map
                (fun p => Obj.get entries p.1))], some e⟩
        | .ok loc =>
          ⟨Event.log (.text ("Got " ++ toString N ++ " ranges.")) ::
            record_logs (spec_records (α := α) buf 0 N) ++
            [.uncmin ((assign_all [] (valid_records (spec_records (α := α) buf 0 N))).map Prod.snd)
              ((assign_all [] (valid_records (spec_records (α := α) buf 0 N))).map
                (fun p => Obj.get entries p.1)),
              .update_location (.xyz loc), .post_to_gdp loc.x loc.y loc.z], none⟩
      else
        ⟨Event.log (.text ("Got " ++ toString N ++ " ranges.")) ::
          record_logs (spec_records (α := α) buf 0 N), some .TypeError⟩ := by
  rw [process_raw_buffer_report uncmin sqrt (.object entries) buf N hwf hN,
    calculate_location_object (α := α) uncmin sqrt _ entries]
  simp only [AnchorLocations.is_null, Bool.false_eq_true, if_false]
  split
  · generalize uncmin _ _ = r
    cases r <;> simp
  · rfl

theorem Obj.mem_of_get (o : Obj β) (k : String) (v : β) (h : Obj.get o k = some v) :
    (k, v) ∈ o := by
  induction o with
  | nil => simp [Obj.get] at h
  | cons p rest ih =>
    obtain ⟨k0, v0⟩ := p
    by_cases h0 : k0 = k
    · simp [Obj.get, h0] at h
      simp [h0, h]
    · simp [Obj.get, h0] at h
      exact List.mem_cons_of_mem _ (ih h)

theorem Obj.not_mem_of_get_none (o : Obj β) (k : String) (h : Obj.get o k = none) (v : β) :
    (k, v) ∉ o := by
  induction o with
  | nil => simp
  | cons p rest ih =>
    obtain ⟨k0, v0⟩ := p
    by_cases h0 : k0 = k
    · simp [Obj.get, h0] at h
    · simp [Obj.get, h0] at h
      intro hm
      rcases List.mem_cons.mp hm with hm | hm
      · exact h0 (congrArg Prod.fst hm).symm
      · exact ih h hm

theorem Obj.keys_set (o : Obj β) (k : String) (v : β) :
    (Obj.set o k v).map Prod.fst =
      if k ∈ o.map Prod.fst then o.map Prod.fst else o.map Prod.fst ++ [k] := by
  induction o with
  | nil => simp [Obj.set]
  | cons p rest ih =>
    obtain ⟨k0, v0⟩ := p
    by_cases h0 : k0 = k
    · subst h0
      simp [Obj.set]
    · have h1 : ¬ k = k0 := fun h => h0 h.symm
      by_cases hm : k ∈ rest.map Prod.fst
      · simp only [Obj.set, h0, if_false, List.map_cons, ih, hm, if_true, List.mem_cons, or_true]
      · simp only [Obj.set, h0, if_false, List.map_cons, ih, hm, List.mem_cons, h1, or_self,
          List.cons_append]

theorem Obj.nodup_keys_set (o : Obj β) (k : String) (v : β)
    (h : (o.map Prod.fst).Nodup) : ((Obj.set o k v).map Prod.fst).Nodup := by
  rw [Obj.keys_set]
  split
  · exact h
  · rename_i hk
    exact List.Nodup.append h (List.nodup_singleton k) (by
      intro x hx hx1
      rw [List.mem_singleton.mp hx1] at hx
      exact hk hx)

theorem nodup_keys_assign_all (recs : List (String × β)) : ∀ (o : Obj β),
    (o.map Prod.fst).Nodup → ((assign_all o recs).map Prod.fst).Nodup := by
  induction recs with
  | nil => intro o h; exact h
  | cons r recs ih =>
    intro o h
    exact ih (Obj.set o r.1 r.2) (Obj.nodup_keys_set o r.1 r.2 h)

theorem Obj.get_of_mem (o : Obj β) (k : String) (v : β) (hn : (o.map Prod.fst).Nodup)
    (hm : (k, v) ∈ o) : Obj.get o k = some v := by
  induction o with
  | nil => simp at hm
  | cons p rest ih =>
    obtain ⟨k0, v0⟩ := p
    have hn1 := List.nodup_cons.mp hn
    rcases List.mem_cons.mp hm with h | h
    · have hk : k0 = k := (congrArg Prod.fst h).symm
      have hv : v0 = v := (congrArg Prod.snd h).symm
      simp [Obj.get, hk, hv]
    · have hne : k0 ≠ k := by
        intro hk
        apply hn1.1
        rw [hk]
        exact List.mem_map.mpr ⟨(k, v), h, rfl⟩
      simp only [Obj.get, hne, if_false]
      exact ih hn1.2 h

/-- C4 (amended): in a range report, a record whose range is `≤ -1000` is not
counted as valid and contributes no entry to the object of ranges: every entry
of that object is a record of the report with range `> -1000`, the last such
record of its identifier, and no identifier occurs twice.  A record whose range
is `> -1000` is counted, and its identifier is a key of the object, mapped to
the range of the last record with range `> -1000` that carries the same
identifier (its own range when no later such record repeats it).  That object
is what `process_raw_buffer` passes to `calculate_location`. -/
theorem range_loop_keeps_valid_ranges (buf : List (Fin 256)) (N : Nat)
    (hwf : is_range_report buf N) :
    ∃ (ranges : Obj α) (nv : Nat) (ev : List (Event α)),
      range_loop buf N 0 [] 0 [.log (.text ("Got " ++ toString N ++ " ranges."))]
        = (ev, .ok (ranges, nv)) ∧
      (∀ i, i < N → buf_to_eui buf (2 + 12 * i) = .ok (spec_record (α := α) buf i).1 ∧
        encoded_mm_to_meters buf (2 + 12 * i + 8) = .ok (spec_record (α := α) buf i).2) ∧
      nv = ((List.range N).filter
        (fun i => decide ((spec_record (α := α) buf i).2 > -1000))).length ∧
      (∀ i, i < N → (spec_record (α := α) buf i).2 ≤ -1000 → spec_record buf i ∉ ranges) ∧
      (∀ p ∈ ranges, p.2 > -1000 ∧
        ∃ j, j < N ∧ p = spec_record buf j ∧
          ∀ k, j < k → k < N → (spec_record (α := α) buf k).1 = p.1 →
            (spec_record (α := α) buf k).2 ≤ -1000) ∧
      (ranges.map Prod.fst).Nodup ∧
      (∀ i, i < N → (spec_record (α := α) buf i).2 > -1000 →
        ∃ j, i ≤ j ∧ j < N ∧ (spec_record (α := α) buf j).1 = (spec_record (α := α) buf i).1 ∧
          (spec_record (α := α) buf j).2 > -1000 ∧
          (∀ k, j < k → k < N →
            (spec_record (α := α) buf k).1 = (spec_record (α := α) buf i).1 →
            (spec_record (α := α) buf k).2 ≤ -1000) ∧
          Obj.get ranges (spec_record (α := α) buf i).1 = some (spec_record (α := α) buf j).2) ∧
      (∀ (uncmin : Uncmin α) (sqrt : α → α) (dir : AnchorLocations α),
        dir.is_null = false → 3 ≤ nv →
        process_raw_buffer uncmin sqrt dir buf =
          match calculate_location uncmin sqrt ranges dir with
          | (ev', .error e) => ⟨ev ++ ev', some e⟩
          | (ev', .ok loc) =>
            ⟨ev ++ ev' ++ [.update_location (.xyz loc), .post_to_gdp loc.x loc.y loc.z],
              none⟩) := by
  have hlen := hwf.2.2
  have hnodup : ((assign_all ([] : Obj α)
      (valid_records (spec_records (α := α) buf 0 N))).map Prod.fst).Nodup :=
    nodup_keys_assign_all _ [] (by simp)
  refine ⟨_, _, _, range_loop_ok buf N 0 [] 0 _ (by omega), ?_, ?_, ?_, ?_, hnodup, ?_, ?_⟩
  · intro i hi
    exact ⟨buf_to_eui_ok buf _ (by omega), encoded_mm_to_meters_ok buf _ (by omega)⟩
  · simp [valid_records, spec_records, List.filter_map, List.range_eq_range', Function.comp_def]
  · intro i _ hle hmem
    rcases mem_assign_all _ _ _ hmem with h | h
    · simp at h
    · exact absurd ((mem_valid_records _ _).mp h).2 (not_lt.mpr hle)
  · intro p hp
    rcases mem_assign_all _ _ _ hp with h | h
    · simp at h
    · obtain ⟨hm, hv⟩ := (mem_valid_records _ _).mp h
      obtain ⟨i, _, hi, rfl⟩ := (mem_spec_records buf _ _ _).mp hm
      refine ⟨hv, ?_⟩
      obtain ⟨j, _, h2, h3, h4, h5⟩ :=
        exists_last_valid buf N (N - i) i (le_refl _) (by omega) hv
      have hget := get_ranges_of_last buf N j h2 h4
        (fun k hk1 hk2 hk3 => h5 k hk1 hk2 (hk3.trans h3))
      rw [h3] at hget
      have hown := Obj.get_of_mem _ (spec_record (α := α) buf i).1 (spec_record (α := α) buf i).2
        hnodup hp
      refine ⟨j, h2, ?_, h5⟩
      exact Prod.ext h3.symm (Option.some.inj (hown.symm.trans hget))
  · intro i hi hv
    obtain ⟨j, h1, h2, h3, h4, h5⟩ := exists_last_valid buf N (N - i) i (le_refl _) hi hv
    refine ⟨j, h1, h2, h3, h4, h5, ?_⟩
    rw [← h3]
    exact get_ranges_of_last buf N j h2 h4 (fun k hk1 hk2 hk3 => h5 k hk1 hk2 (hk3.trans h3))
  · intro uncmin sqrt dir hnull h3
    have hN : 0 < N := by
      rcases Nat.eq_zero_or_pos N with h | h
      · subst h
        simp [spec_records, valid_records] at h3
      · exact h
    rw [process_raw_buffer_report uncmin sqrt dir buf N hwf hN]
    simp only [hnull, Bool.false_eq_true, if_false]
    rw [if_pos (by simpa using h3)]
    simp

/-- Witness for C4: the loop on `report_sentinel`, whose second record carries
the error code -1000 m. -/
theorem range_loop_keeps_valid_ranges_witness :
    (spec_record (α := ℚ) report_sentinel 1).2 ≤ -1000 ∧
    ∃ (ranges : Obj ℚ) (nv : Nat) (ev : List (Event ℚ)),
      range_loop report_sentinel 4 0 [] 0 [.log (.text ("Got " ++ toString 4 ++ " ranges."))]
        = (ev, .ok (ranges, nv)) ∧
      (∀ i, i < 4 →
        buf_to_eui report_sentinel (2 + 12 * i) = .ok (spec_record (α := ℚ) report_sentinel i).1 ∧
        encoded_mm_to_meters report_sentinel (2 + 12 * i + 8)
          = .ok (spec_record (α := ℚ) report_sentinel i).2) ∧
      nv = ((List.range 4).filter
        (fun i => decide ((spec_record (α := ℚ) report_sentinel i).2 > -1000))).length ∧
      (∀ i, i < 4 → (spec_record (α := ℚ) report_sentinel i).2 ≤ -1000 →
        spec_record report_sentinel i ∉ ranges) ∧
      (∀ p ∈ ranges, p.2 > -1000 ∧
        ∃ j, j < 4 ∧ p = spec_record report_sentinel j ∧
          ∀ k, j < k → k < 4 → (spec_record (α := ℚ) report_sentinel k).1 = p.1 →
            (spec_record (α := ℚ) report_sentinel k).2 ≤ -1000) ∧
      (ranges.map Prod.fst).Nodup ∧
      (∀ i, i < 4 → (spec_record (α := ℚ) report_sentinel i).2 > -1000 →
        ∃ j, i ≤ j ∧ j < 4 ∧
          (spec_record (α := ℚ) report_sentinel j).1 = (spec_record (α := ℚ) report_sentinel i).1 ∧
          (spec_record (α := ℚ) report_sentinel j).2 > -1000 ∧
          (∀ k, j < k → k < 4 →
            (spec_record (α := ℚ) report_sentinel k).1
              = (spec_record (α := ℚ) report_sentinel i).1 →
            (spec_record (α := ℚ) report_sentinel k).2 ≤ -1000) ∧
          Obj.get ranges (spec_record (α := ℚ) report_sentinel i).1
            = some (spec_record (α := ℚ) report_sentinel j).2) := by
  refine ⟨?_, ?_⟩
  · have v1 : spec_int32 report_sentinel (2 + 12 * 1 + 8) = -1000000 := by decide
    simp only [spec_record, v1]
    norm_num
  · obtain ⟨ranges, nv, ev, h1, h2, h3, h4, h5, h6, h7, _⟩ :=
      range_loop_keeps_valid_ranges (α := ℚ) report_sentinel 4 (by decide)
    exact ⟨ranges, nv, ev, h1, h2, h3, h4, h5, h6, h7⟩

theorem report_one_records : spec_records (α := α) report_one 0 1 =
    [("00:00:00:00:00:00:00:0a", 1)] := by
  have e0 : spec_eui report_one (2 + 12 * 0) = "00:00:00:00:00:00:00:0a" := by decide
  have v0 : spec_int32 report_one (2 + 12 * 0 + 8) = 1000 := by decide
  simp only [spec_records, List.range', List.map, spec_record, e0, v0]
  norm_num

theorem report_three_records : spec_records (α := α) report_three 0 3 =
    [("00:00:00:00:00:00:00:0a", 1), ("00:00:00:00:00:00:00:0b", 2),
     ("00:00:00:00:00:00:00:0c", 3)] := by
  have e0 : spec_eui report_three (2 + 12 * 0) = "00:00:00:00:00:00:00:0a" := by decide
  have e1 : spec_eui report_three (2 + 12 * 1) = "00:00:00:00:00:00:00:0b" := by decide
  have e2 : spec_eui report_three (2 + 12 * 2) = "00:00:00:00:00:00:00:0c" := by decide
  have v0 : spec_int32 report_three (2 + 12 * 0 + 8) = 1000 := by decide
  have v1 : spec_int32 report_three (2 + 12 * 1 + 8) = 2000 := by decide
  have v2 : spec_int32 report_three (2 + 12 * 2 + 8) = 3000 := by decide
  simp only [spec_records, List.range', List.map, spec_record, e0, e1, e2, v0, v1, v2]
  norm_num

theorem report_same_anchor_records :
    spec_records (α := α) report_same_anchor 0 3 =
    [("00:00:00:00:00:00:00:0a", 1), ("00:00:00:00:00:00:00:0a", 2),
     ("00:00:00:00:00:00:00:0a", 3)] := by
  have e0 : spec_eui report_same_anchor (2 + 12 * 0) = "00:00:00:00:00:00:00:0a" := by decide
  have e1 : spec_eui report_same_anchor (2 + 12 * 1) = "00:00:00:00:00:00:00:0a" := by decide
  have e2 : spec_eui report_same_anchor (2 + 12 * 2) = "00:00:00:00:00:00:00:0a" := by decide
  have v0 : spec_int32 report_same_anchor (2 + 12 * 0 + 8) = 1000 := by decide
  have v1 : spec_int32 report_same_anchor (2 + 12 * 1 + 8) = 2000 := by decide
  have v2 : spec_int32 report_same_anchor (2 + 12 * 2 + 8) = 3000 := by decide
  simp only [spec_records, List.range', List.map, spec_record, e0, e1, e2, v0, v1, v2]
  norm_num

theorem report_repeat_records :
    spec_records (α := α) report_repeat 0 4 =
    [("00:00:00:00:00:00:00:0a", 1), ("00:00:00:00:00:00:00:0a", 2),
     ("00:00:00:00:00:00:00:0b", 3), ("00:00:00:00:00:00:00:0c", 4)] := by
  have e0 : spec_eui report_repeat (2 + 12 * 0) = "00:00:00:00:00:00:00:0a" := by decide
  have e1 : spec_eui report_repeat (2 + 12 * 1) = "00:00:00:00:00:00:00:0a" := by decide
  have e2 : spec_eui report_repeat (2 + 12 * 2) = "00:00:00:00:00:00:00:0b" := by decide
  have e3 : spec_eui report_repeat (2 + 12 * 3) = "00:00:00:00:00:00:00:0c" := by decide
  have v0 : spec_int32 report_repeat (2 + 12 * 0 + 8) = 1000 := by decide
  have v1 : spec_int32 report_repeat (2 + 12 * 1 + 8) = 2000 := by decide
  have v2 : spec_int32 report_repeat (2 + 12 * 2 + 8) = 3000 := by decide
  have v3 : spec_int32 report_repeat (2 + 12 * 3 + 8) = 4000 := by decide
  simp only [spec_records, List.range', List.map, spec_record, e0, e1, e2, e3, v0, v1, v2, v3]
  norm_num

/-- C4 (as stated, refuted): in `report_repeat` record 0 decodes to 1 m, which
is `> -1000`, yet the ranges handed on for the location calculation are
`[2, 3, 4]`: the second record, of the same anchor, replaced it. -/
theorem repeated_anchor_overwrites_range :
    is_range_report report_repeat 4 ∧
    (encoded_mm_to_meters report_repeat (2 + 12 * 0 + 8) : Except JsError ℚ) = .ok 1 ∧
    (1 : ℚ) > -1000 ∧
    (process_raw_buffer (α := ℚ) uncmin_at_start (fun x => x) (.object directory_abc)
        report_repeat).events =
      [.log (.text "Got 4 ranges."),
       .log (.range "00:00:00:00:00:00:00:0a" 1),
       .log (.range "00:00:00:00:00:00:00:0a" 2),
       .log (.range "00:00:00:00:00:00:00:0b" 3),
       .log (.range "00:00:00:00:00:00:00:0c" 4),
       .uncmin [2, 3, 4] [some ⟨0, 0, 0⟩, some ⟨10, 0, 0⟩, some ⟨0, 10, 0⟩],
       .update_location (.xyz ⟨0, 0, 0⟩),
       .post_to_gdp 0 0 0] ∧
    (1 : ℚ) ∉ [(2 : ℚ), 3, 4] := by
  refine ⟨by decide, ?_, by norm_num, ?_, by norm_num⟩
  · rw [encoded_mm_to_meters_ok report_repeat _ (by decide)]
    have v0 : spec_int32 report_repeat (2 + 12 * 0 + 8) = 1000 := by decide
    rw [v0]; norm_num
  · rw [process_raw_buffer_object _ _ _ report_repeat 4 (by decide) (by decide),
      report_repeat_records]
    have hv : valid_records (α := ℚ) [("00:00:00:00:00:00:00:0a", 1),
        ("00:00:00:00:00:00:00:0a", 2), ("00:00:00:00:00:00:00:0b", 3),
        ("00:00:00:00:00:00:00:0c", 4)] = [("00:00:00:00:00:00:00:0a", 1),
        ("00:00:00:00:00:00:00:0a", 2), ("00:00:00:00:00:00:00:0b", 3),
        ("00:00:00:00:00:00:00:0c", 4)] := by
      simp [valid_records]; norm_num
    have ha : assign_all (α := ℚ) [] [("00:00:00:00:00:00:00:0a", 1),
        ("00:00:00:00:00:00:00:0a", 2), ("00:00:00:00:00:00:00:0b", 3),
        ("00:00:00:00:00:00:00:0c", 4)] = [("00:00:00:00:00:00:00:0a", 2),
        ("00:00:00:00:00:00:00:0b", 3), ("00:00:00:00:00:00:00:0c", 4)] := by
      simp [assign_all, Obj.set]
    have ht : toString 4 = "4" := by decide
    rw [hv, ha]
    simp [record_logs, Obj.get, directory_abc, uncmin_at_start, location_optimize,
      location_optimize_loop, reduce_add, ht]

/-- C5 (the code at the failing input): three records of the same anchor count
as three valid ranges, so `calculate_location` is called, and the arrays it
hands to the minimizer hold a single measurement. -/
theorem solver_called_with_one_range (uncmin : Uncmin α) (sqrt : α → α) :
    is_range_report report_same_anchor 3 ∧
    Event.uncmin [3] [some ⟨0, 0, 0⟩] ∈
      (process_raw_buffer (α := α) uncmin sqrt (.object directory_abc)
        report_same_anchor).events := by
  refine ⟨by decide, ?_⟩
  rw [process_raw_buffer_object _ _ _ report_same_anchor 3 (by decide) (by decide),
    report_same_anchor_records]
  have hv : valid_records (α := α) [("00:00:00:00:00:00:00:0a", 1),
      ("00:00:00:00:00:00:00:0a", 2), ("00:00:00:00:00:00:00:0a", 3)]
      = [("00:00:00:00:00:00:00:0a", 1), ("00:00:00:00:00:00:00:0a", 2),
        ("00:00:00:00:00:00:00:0a", 3)] := by
    simp [valid_records]; norm_num
  have ha : assign_all (α := α) [] [("00:00:00:00:00:00:00:0a", 1),
      ("00:00:00:00:00:00:00:0a", 2), ("00:00:00:00:00:00:00:0a", 3)]
      = [("00:00:00:00:00:00:00:0a", 3)] := by
    simp [assign_all, Obj.set]
  rw [hv, ha]
  simp only [List.length_cons, List.length_nil, ge_iff_le, le_refl, if_true]
  generalize uncmin _ _ = r
  cases r <;> simp [Obj.get, directory_abc]

/-- C6 (the code at the failing input): one valid range with a directory
available ends in a `TypeError` (the read `loc[0]` of the unset `loc`), after
the log lines and without any status. -/
theorem one_range_raises (uncmin : Uncmin α) (sqrt : α → α) :
    is_range_report report_one 1 ∧
    process_raw_buffer (α := α) uncmin sqrt (.object directory_abc) report_one =
      ⟨[.log (.text "Got 1 ranges."), .log (.range "00:00:00:00:00:00:00:0a" 1)],
        some .TypeError⟩ := by
  refine ⟨by decide, ?_⟩
  rw [process_raw_buffer_object _ _ _ report_one 1 (by decide) (by decide),
    report_one_records]
  have ht : toString 1 = "1" := by decide
  have hlt : ¬ (valid_records (α := α) [("00:00:00:00:00:00:00:0a", 1)]).length ≥ 3 := by
    have := List.length_filter_le (fun r : String × α => decide (r.2 > -1000))
      [("00:00:00:00:00:00:00:0a", 1)]
    simp only [List.length_cons, List.length_nil] at this
    simp only [valid_records]
    omega
  rw [if_neg hlt]
  simp [record_logs, ht]

/-- C7 (as stated, refuted): with a directory that knows only anchor `…:0a`,
the solver is still invoked with the ranges of `…:0b` and `…:0c`, whose
coordinate entries are undefined. -/
theorem absent_anchor_reaches_solver :
    is_range_report report_three 3 ∧
    process_raw_buffer (α := ℚ) uncmin_at_start (fun x => x)
        (.object [("00:00:00:00:00:00:00:0a", ⟨0, 0, 0⟩)]) report_three =
      ⟨[.log (.text "Got 3 ranges."),
        .log (.range "00:00:00:00:00:00:00:0a" 1),
        .log (.range "00:00:00:00:00:00:00:0b" 2),
        .log (.range "00:00:00:00:00:00:00:0c" 3),
        .uncmin [1, 2, 3] [some ⟨0, 0, 0⟩, none, none]], some .TypeError⟩ := by
  refine ⟨by decide, ?_⟩
  rw [process_raw_buffer_object _ _ _ report_three 3 (by decide) (by decide),
    report_three_records]
  have hv : valid_records (α := ℚ) [("00:00:00:00:00:00:00:0a", 1),
      ("00:00:00:00:00:00:00:0b", 2), ("00:00:00:00:00:00:00:0c", 3)]
      = [("00:00:00:00:00:00:00:0a", 1), ("00:00:00:00:00:00:00:0b", 2),
        ("00:00:00:00:00:00:00:0c", 3)] := by
    simp [valid_records]; norm_num
  have ha : assign_all (α := ℚ) [] [("00:00:00:00:00:00:00:0a", 1),
      ("00:00:00:00:00:00:00:0b", 2), ("00:00:00:00:00:00:00:0c", 3)]
      = [("00:00:00:00:00:00:00:0a", 1), ("00:00:00:00:00:00:00:0b", 2),
        ("00:00:00:00:00:00:00:0c", 3)] := by
    simp [assign_all, Obj.set]
  have ht : toString 3 = "3" := by decide
  rw [hv, ha]
  simp [record_logs, Obj.get, uncmin_at_start, location_optimize,
    location_optimize_loop, ht]

/-- C8 (as stated, refuted): with an empty directory the location computation
goes ahead: the solver is invoked, the run ends in a `TypeError`, and the
status `Waiting for anchor locations` is not reported. -/
theorem empty_directory_not_deferred :
    is_range_report report_three 3 ∧
    process_raw_buffer (α := ℚ) uncmin_at_start (fun x => x) (.object []) report_three =
      ⟨[.log (.text "Got 3 ranges."),
        .log (.range "00:00:00:00:00:00:00:0a" 1),
        .log (.range "00:00:00:00:00:00:00:0b" 2),
        .log (.range "00:00:00:00:00:00:00:0c" 3),
        .uncmin [1, 2, 3] [none, none, none]], some .TypeError⟩ := by
  refine ⟨by decide, ?_⟩
  rw [process_raw_buffer_object _ _ _ report_three 3 (by decide) (by decide),
    report_three_records]
  have hv : valid_records (α := ℚ) [("00:00:00:00:00:00:00:0a", 1),
      ("00:00:00:00:00:00:00:0b", 2), ("00:00:00:00:00:00:00:0c", 3)]
      = [("00:00:00:00:00:00:00:0a", 1), ("00:00:00:00:00:00:00:0b", 2),
        ("00:00:00:00:00:00:00:0c", 3)] := by
    simp [valid_records]; norm_num
  have ha : assign_all (α := ℚ) [] [("00:00:00:00:00:00:00:0a", 1),
      ("00:00:00:00:00:00:00:0b", 2), ("00:00:00:00:00:00:00:0c", 3)]
      = [("00:00:00:00:00:00:00:0a", 1), ("00:00:00:00:00:00:00:0b", 2),
        ("00:00:00:00:00:00:00:0c", 3)] := by
    simp [assign_all, Obj.set]
  have ht : toString 3 = "3" := by decide
  rw [hv, ha]
  simp [record_logs, Obj.get, uncmin_at_start, location_optimize,
    location_optimize_loop, ht]

theorem process_raw_buffer_no_records (uncmin : Uncmin α) (sqrt : α → α)
    (dir : AnchorLocations α) (buf : List (Fin 256)) (hwf : is_range_report buf 0) :
    process_raw_buffer uncmin sqrt dir buf =
      ⟨[.log (.text "Got range, 0 anchors"),
        .update_location (.text "Didn't get any ranges.")], none⟩ := by
  obtain ⟨h0, h1, hlen⟩ := hwf
  have g0 : getUint8 buf 0 = .ok SQUAREPOINT_READ_INT_RANGES := by
    rw [getUint8_of_lt buf 0 (by omega), h0]
  have g1 : getUint8 buf 1 = .ok 0 := by
    rw [getUint8_of_lt buf 1 (by omega), h1]
  unfold process_raw_buffer
  simp only [g0, g1, if_true]

/-- C7 (amended): whenever the solver is invoked on a range report, the
directory is an object and the two arrays built by `calculate_location` are
aligned 1:1: both are read off the same list of (identifier, range) entries,
each of which is a record of the report with range `> -1000`; the coordinate
entry at an index is the directory lookup of the identifier at that index, a
triple taken from the directory when the identifier is a key and undefined when
it is not (such ranges are not filtered out). -/
theorem solver_arrays_aligned (uncmin : Uncmin α) (sqrt : α → α) (dir : AnchorLocations α)
    (buf : List (Fin 256)) (N : Nat) (hwf : is_range_report buf N)
    (rs : List α) (ls : List (Option (Coord α)))
    (hcall : Event.uncmin rs ls ∈ (process_raw_buffer uncmin sqrt dir buf).events) :
    ∃ (entries : Obj (Coord α)) (ranges : Obj α),
      dir = .object entries ∧
      rs = ranges.map Prod.snd ∧
      ls = ranges.map (fun p => Obj.get entries p.1) ∧
      rs.length = ls.length ∧
      (∀ p ∈ ranges, p.2 > -1000 ∧ ∃ i, i < N ∧ p = spec_record buf i) ∧
      (∀ p ∈ ranges, ∀ c, Obj.get entries p.1 = some c → (p.1, c) ∈ entries) ∧
      (∀ p ∈ ranges, Obj.get entries p.1 = none → ∀ c, (p.1, c) ∉ entries) := by
  rcases Nat.eq_zero_or_pos N with hN | hN
  · subst hN
    rw [process_raw_buffer_no_records uncmin sqrt dir buf hwf] at hcall
    simp at hcall
  have hvalid : ∀ p ∈ assign_all [] (valid_records (spec_records (α := α) buf 0 N)),
      p.2 > -1000 ∧ ∃ i, i < N ∧ p = spec_record buf i := by
    intro p hp
    rcases mem_assign_all _ _ _ hp with h | h
    · simp at h
    · obtain ⟨hm, hv⟩ := (mem_valid_records _ _).mp h
      obtain ⟨k, _, hk, rfl⟩ := (mem_spec_records buf _ _ _).mp hm
      exact ⟨hv, k, by omega, rfl⟩
  cases dir with
  | null =>
    rw [process_raw_buffer_report uncmin sqrt .null buf N hwf hN] at hcall
    simp [AnchorLocations.is_null, record_logs] at hcall
  | undefined =>
    rw [process_raw_buffer_report uncmin sqrt .undefined buf N hwf hN] at hcall
    simp only [AnchorLocations.is_null, Bool.false_eq_true, if_false] at hcall
    split at hcall
    · rename_i h3
      have hne : assign_all [] (valid_records (spec_records (α := α) buf 0 N)) ≠ [] := by
        apply assign_all_ne_nil
        right
        intro hnil
        rw [hnil] at h3
        simp at h3
      rw [calculate_location_not_object uncmin sqrt _ .undefined (by intro e; simp) hne] at hcall
      simp [record_logs] at hcall
    · simp [record_logs] at hcall
  | object entries =>
    refine ⟨entries, assign_all [] (valid_records (spec_records (α := α) buf 0 N)), rfl, ?_⟩
    rw [process_raw_buffer_object uncmin sqrt entries buf N hwf hN] at hcall
    have hrl : rs = (assign_all [] (valid_records (spec_records (α := α) buf 0 N))).map Prod.snd ∧
        ls = (assign_all [] (valid_records (spec_records (α := α) buf 0 N))).map
          (fun p => Obj.get entries p.1) := by
      split at hcall
      · split at hcall
        · simpa [record_logs] using hcall
        · simpa [record_logs] using hcall
      · simp [record_logs] at hcall
    refine ⟨hrl.1, hrl.2, ?_, hvalid, ?_, ?_⟩
    · rw [hrl.1, hrl.2]; simp
    · intro p _ c hc
      exact Obj.mem_of_get entries p.1 c hc
    · intro p _ hc c
      exact Obj.not_mem_of_get_none entries p.1 hc c

theorem report_three_solver_call (uncmin : Uncmin α) (sqrt : α → α) :
    Event.uncmin [1, 2, 3] [some ⟨0, 0, 0⟩, some ⟨10, 0, 0⟩, some ⟨0, 10, 0⟩] ∈
      (process_raw_buffer (α := α) uncmin sqrt (.object directory_abc) report_three).events := by
  rw [process_raw_buffer_object _ _ _ report_three 3 (by decide) (by decide),
    report_three_records]
  have hv : valid_records (α := α) [("00:00:00:00:00:00:00:0a", 1),
      ("00:00:00:00:00:00:00:0b", 2), ("00:00:00:00:00:00:00:0c", 3)]
      = [("00:00:00:00:00:00:00:0a", 1), ("00:00:00:00:00:00:00:0b", 2),
        ("00:00:00:00:00:00:00:0c", 3)] := by
    simp [valid_records]; norm_num
  have ha : assign_all (α := α) [] [("00:00:00:00:00:00:00:0a", 1),
      ("00:00:00:00:00:00:00:0b", 2), ("00:00:00:00:00:00:00:0c", 3)]
      = [("00:00:00:00:00:00:00:0a", 1), ("00:00:00:00:00:00:00:0b", 2),
        ("00:00:00:00:00:00:00:0c", 3)] := by
    simp [assign_all, Obj.set]
  rw [hv, ha]
  simp only [List.length_cons, List.length_nil, ge_iff_le, le_refl, if_true]
  generalize uncmin _ _ = r
  cases r <;> simp [Obj.get, directory_abc]

/-- Witness for C7: the solver call made for `report_three` with a directory
that knows its three anchors. -/
theorem solver_arrays_aligned_witness :
    ∃ (entries : Obj (Coord ℚ)) (ranges : Obj ℚ),
      AnchorLocations.object directory_abc = .object entries ∧
      [1, 2, 3] = ranges.map Prod.snd ∧
      [some ⟨0, 0, 0⟩, some ⟨10, 0, 0⟩, some ⟨0, 10, 0⟩]
        = ranges.map (fun p => Obj.get entries p.1) ∧
      ([1, 2, 3] : List ℚ).length
        = ([some ⟨0, 0, 0⟩, some ⟨10, 0, 0⟩, some ⟨0, 10, 0⟩] : List (Option (Coord ℚ))).length ∧
      (∀ p ∈ ranges, p.2 > -1000 ∧ ∃ i, i < 3 ∧ p = spec_record report_three i) ∧
      (∀ p ∈ ranges, ∀ c, Obj.get entries p.1 = some c → (p.1, c) ∈ entries) ∧
      (∀ p ∈ ranges, Obj.get entries p.1 = none → ∀ c, (p.1, c) ∉ entries) :=
  solver_arrays_aligned uncmin_at_start (fun x => x) (.object directory_abc) report_three 3
    (by decide) [1, 2, 3] [some ⟨0, 0, 0⟩, some ⟨10, 0, 0⟩, some ⟨0, 10, 0⟩]
    (report_three_solver_call uncmin_at_start (fun x => x))

/-- C8 (amended): when the directory is unset (`null`), a range report with at
least one record is not solved: the run ends normally, the solver is not
invoked, and the only status reported, as the last call, is
`Waiting for anchor locations`; it differs from `Didn't get any ranges.`, the
status of a report without records. -/
theorem null_directory_defers (uncmin : Uncmin α) (sqrt : α → α) (buf : List (Fin 256))
    (N : Nat) (hwf : is_range_report buf N) (hN : 0 < N) :
    (process_raw_buffer uncmin sqrt .null buf).thrown = none ∧
    (∀ rs ls, Event.uncmin rs ls ∉ (process_raw_buffer uncmin sqrt .null buf).events) ∧
    (process_raw_buffer uncmin sqrt .null buf).events.getLast?
      = some (.update_location (.text "Waiting for anchor locations")) ∧
    (∀ s, Event.update_location s ∈ (process_raw_buffer uncmin sqrt .null buf).events →
      s = .text "Waiting for anchor locations") ∧
    (∀ (buf0 : List (Fin 256)) (dir : AnchorLocations α), is_range_report buf0 0 →
      process_raw_buffer uncmin sqrt dir buf0 =
        ⟨[.log (.text "Got range, 0 anchors"),
          .update_location (.text "Didn't get any ranges.")], none⟩) ∧
    Status.text (α := α) "Waiting for anchor locations" ≠ .text "Didn't get any ranges." := by
  rw [process_raw_buffer_report uncmin sqrt .null buf N hwf hN]
  simp only [AnchorLocations.is_null, if_true]
  refine ⟨trivial, ?_, ?_, ?_, ?_, by simp⟩
  · intro rs ls h
    simp [record_logs] at h
  · rw [List.getLast?_append]
    simp
  · intro s h
    simpa [record_logs] using h
  · intro buf0 dir h0
    exact process_raw_buffer_no_records uncmin sqrt dir buf0 h0

/-- Witness for C8: `report_one` received before any directory was loaded. -/
theorem null_directory_defers_witness :
    (process_raw_buffer (α := ℚ) uncmin_at_start (fun x => x) .null report_one).thrown = none ∧
    (process_raw_buffer (α := ℚ) uncmin_at_start (fun x => x) .null report_one).events.getLast?
      = some (.update_location (.text "Waiting for anchor locations")) :=
  let h := null_directory_defers (α := ℚ) uncmin_at_start (fun x => x) report_one 1
    (by decide) (by decide)
  ⟨h.1, h.2.2.1⟩

theorem location_optimize_loop_ok (sqrt : α → α) (p : Coord α) :
    ∀ (rest_r : List α) (rest_l pre : List (Coord α)) (out : List α),
      rest_r.length = rest_l.length →
      location_optimize_loop sqrt p ((pre ++ rest_l).map some) rest_r pre.length out =
        .ok (out ++ (List.zip rest_r rest_l).map (fun q =>
          (sqrt ((p.x - q.2.x) ^ 2 + (p.y - q.2.y) ^ 2 + (p.z - q.2.z) ^ 2) - q.1) ^ 2)) := by
  intro rest_r
  induction rest_r with
  | nil =>
    intro rest_l pre out _
    simp [location_optimize_loop]
  | cons r rs ih =>
    intro rest_l pre out hlen
    cases rest_l with
    | nil => simp at hlen
    | cons l lst =>
      have hget : ((pre ++ l :: lst).map some).get? pre.length = some (some l) := by
        rw [List.get?_eq_getElem?, List.getElem?_map, List.getElem?_append_right (le_refl _)]
        simp
      have hrec := ih lst (pre ++ [l]) (out ++ [(sqrt ((p.x - l.x) * (p.x - l.x) +
        (p.y - l.y) * (p.y - l.y) + (p.z - l.z) * (p.z - l.z)) - r) *
        (sqrt ((p.x - l.x) * (p.x - l.x) + (p.y - l.y) * (p.y - l.y) +
        (p.z - l.z) * (p.z - l.z)) - r)]) (by simpa using hlen)
      rw [location_optimize_loop, hget]
      simp only [List.append_assoc, List.singleton_append, List.length_append,
        List.length_singleton] at hrec
      simp only []
      rw [hrec]
      simp [sq]

theorem foldl_add_eq_sum (l : List α) : ∀ a : α,
    l.foldl (fun a b => a + b) a = a + l.sum := by
  induction l with
  | nil => intro a; simp
  | cons b l ih => intro a; simp [ih, add_assoc]

theorem location_optimize_ok (sqrt : α → α) (p : Coord α) (ranges : List α)
    (locs : List (Coord α)) (hne : ranges ≠ []) (hlen : ranges.length = locs.length) :
    location_optimize sqrt p ranges (locs.map some) = .ok (spec_objective sqrt p ranges locs) := by
  have h := location_optimize_loop_ok sqrt p ranges locs [] [] hlen
  simp only [List.nil_append, List.length_nil] at h
  unfold location_optimize
  rw [h]
  cases ranges with
  | nil => exact absurd rfl hne
  | cons r rs =>
    cases locs with
    | nil => simp at hlen
    | cons l lst =>
      simp [reduce_add, spec_objective, foldl_add_eq_sum]

/-- C9: over the reals, for a point `p` and non-empty, equally long arrays of
ranges and anchor coordinates, `location_optimize` returns the sum of
`(sqrt((p.x-a.x)² + (p.y-a.y)² + (p.z-a.z)²) - r)²`; `calculate_location` hands
the minimizer exactly this function of the start point, over the arrays it
built, with starting guess `(0,0,0)`; and for anchors `(0,0,0)`, `(10,0,0)`,
`(0,10,0)` with the exact ranges from `(3,4,0)` the objective is `0` there. -/
theorem location_optimize_sum_of_squares (p : Coord ℝ) (ranges : List ℝ)
    (locs : List (Coord ℝ)) (hne : ranges ≠ []) (hlen : ranges.length = locs.length)
    (uncmin : Uncmin ℝ) (anchor_ranges : Obj ℝ) (entries : Obj (Coord ℝ)) :
    location_optimize Real.sqrt p ranges (locs.map some)
      = .ok (((List.zip ranges locs).map (fun q =>
          (Real.sqrt ((p.x - q.2.x) ^ 2 + (p.y - q.2.y) ^ 2 + (p.z - q.2.z) ^ 2) - q.1) ^ 2)).sum) ∧
    calculate_location uncmin Real.sqrt anchor_ranges (.object entries)
      = ([.uncmin (anchor_ranges.map Prod.snd)
            (anchor_ranges.map (fun q => Obj.get entries q.1))],
          uncmin (fun start => location_optimize Real.sqrt start (anchor_ranges.map Prod.snd)
            (anchor_ranges.map (fun q => Obj.get entries q.1))) ⟨0, 0, 0⟩) ∧
    location_optimize Real.sqrt ⟨3, 4, 0⟩ [5, Real.sqrt 65, Real.sqrt 45]
      [some ⟨0, 0, 0⟩, some ⟨10, 0, 0⟩, some ⟨0, 10, 0⟩] = .ok 0 := by
  refine ⟨location_optimize_ok Real.sqrt p ranges locs hne hlen,
    calculate_location_object uncmin Real.sqrt anchor_ranges entries, ?_⟩
  have h := location_optimize_ok Real.sqrt (⟨3, 4, 0⟩ : Coord ℝ) [5, Real.sqrt 65, Real.sqrt 45]
    [⟨0, 0, 0⟩, ⟨10, 0, 0⟩, ⟨0, 10, 0⟩] (by simp) rfl
  simp only [List.map] at h
  rw [h]
  have h25 : Real.sqrt 25 = 5 := by
    rw [show (25 : ℝ) = 5 ^ 2 by norm_num]
    exact Real.sqrt_sq (by norm_num)
  simp only [spec_objective, List.zip_cons_cons, List.zip_nil_right, List.map, List.sum_cons,
    List.sum_nil]
  norm_num [h25]

/-- Witness for C9: two anchors on the x axis, seen from the origin. -/
theorem location_optimize_sum_of_squares_witness :
    location_optimize Real.sqrt ⟨0, 0, 0⟩ [1, 2] ([(⟨1, 0, 0⟩ : Coord ℝ), ⟨2, 0, 0⟩].map some)
      = .ok (((List.zip [1, 2] [(⟨1, 0, 0⟩ : Coord ℝ), ⟨2, 0, 0⟩]).map (fun q =>
          (Real.sqrt (((0 : ℝ) - q.2.x) ^ 2 + (0 - q.2.y) ^ 2 + (0 - q.2.z) ^ 2) - q.1) ^ 2)).sum) :=
  (location_optimize_sum_of_squares ⟨0, 0, 0⟩ [1, 2] [⟨1, 0, 0⟩, ⟨2, 0, 0⟩] (by simp) rfl
    (fun _ x0 => .ok x0) [] []).1

/-- C10: on a connect failure, if the reason is the "not found" message for the
target device the handler starts one scan and issues no connect; for any other
reason it issues exactly one connect, to the target device, and starts no scan. -/
theorem connection_error_rescans_or_retries (device_id err : String) :
    (err = "Peripheral " ++ device_id ++ " not found." →
      (bleDeviceConnectionError device_id err).count .startScan = 1 ∧
      ∀ id, BleCall.connect id ∉ bleDeviceConnectionError device_id err) ∧
    (err ≠ "Peripheral " ++ device_id ++ " not found." →
      (bleDeviceConnectionError device_id err).count (.connect device_id) = 1 ∧
      (∀ id, BleCall.connect id ∈ bleDeviceConnectionError device_id err → id = device_id) ∧
      BleCall.startScan ∉ bleDeviceConnectionError device_id err) ∧
    (((bleDeviceConnectionError device_id err).count .startScan = 1 ∧
        ∀ id, BleCall.connect id ∉ bleDeviceConnectionError device_id err) ∨
      ((bleDeviceConnectionError device_id err).count (.connect device_id) = 1 ∧
        BleCall.startScan ∉ bleDeviceConnectionError device_id err)) := by
  by_cases h : err = "Peripheral " ++ device_id ++ " not found."
  · have hrun : bleDeviceConnectionError device_id err =
        [.log ("Error connecting to TotTag: " ++ err), .log "BLE is enabled.", .startScan] := by
      simp [bleDeviceConnectionError, bleEnabled, h]
    rw [hrun]
    refine ⟨fun _ => ⟨by simp, by simp⟩, fun hne => absurd h hne, Or.inl ⟨by simp, by simp⟩⟩
  · have hrun : bleDeviceConnectionError device_id err =
        [.log ("Error connecting to TotTag: " ++ err), .log "TotTag reconnecting try",
          .connect device_id] := by
      simp [bleDeviceConnectionError, h]
    rw [hrun]
    refine ⟨fun he => absurd he h, fun _ => ⟨by simp, by simp, by simp⟩, Or.inr ⟨by simp, by simp⟩⟩

/-- Witness for C10: a time-out while connecting to device `AA` is retried. -/
theorem connection_error_rescans_or_retries_witness :
    (bleDeviceConnectionError "AA" "Timeout").count (.connect "AA") = 1 ∧
    BleCall.startScan ∉ bleDeviceConnectionError "AA" "Timeout" :=
  let h := (connection_error_rescans_or_retries "AA" "Timeout").2.1 (by decide)
  ⟨h.1, h.2.2⟩

end SociTrack
